import Mathlib

/-!
# SmartLifeAI — verification of the natural-language specification

Shallow embedding of the SmartLifeAI backend (Flask + SQLite + LangChain):

* `src/ai.py`   — interview-question generation with deterministic fallback;
* `src/db.py`   — the SQLite-backed expense ledger;
* `src/app.py`  — the request-handler validation layer for expense creation.

Python runtime values that flow through the handlers are modelled by the
inductive type `PyValue`; the remote language-model call is modelled by the
inductive `LLMOutcome` enumerating the outcomes the code distinguishes.
-/

namespace SmartLife

/-- A Python float: a finite value (held as the exact rational the source
text denotes — rounding to the nearest double never changes any comparison
against zero that the code performs, which is the only way finite float
values are inspected), or one of the IEEE specials `inf`, `-inf`, `nan`,
which Python's `float()` and `json.loads` can produce. -/
inductive PyFloat where
  | finite (q : Rat)
  | inf
  | negInf
  | nan
deriving DecidableEq

/-- A JSON-style Python runtime value, as produced by `json.loads` and passed
through the Flask handlers.  Numbers are split into `int` and `float` as in
Python.  Dict keys are strings, as everywhere in this code base. -/
inductive PyValue where
  | str (s : String)
  | int (n : Int)
  | float (f : PyFloat)
  | bool (b : Bool)
  | none
  | list (xs : List PyValue)
  | dict (kvs : List (String × PyValue))

/-- Python truthiness (`if x:`): `None`, `False`, numeric zero, and empty
strings/lists/dicts are falsy; everything else is truthy. -/
def pyTruthy : PyValue → Bool
  | .str s => !s.isEmpty
  | .int n => n != 0
  | .float (.finite q) => q != 0
  | .float _ => true
  | .bool b => b
  | .none => false
  | .list xs => !xs.isEmpty
  | .dict kvs => !kvs.isEmpty

/-- Python `len(x)`: defined for strings, lists and dicts; `Option.none`
models the `TypeError` raised on other values. -/
def pyLen : PyValue → Option Nat
  | .str s => some s.length
  | .list xs => some xs.length
  | .dict kvs => some kvs.length
  | _ => Option.none

/-- First value bound to key `k` in an association list (Python dicts in this
code are built once, so first binding = the binding). -/
def lookupKey (kvs : List (String × PyValue)) (k : String) : Option PyValue :=
  (kvs.find? (fun p => p.1 = k)).map (·.2)

/-- Whether a dict value has key `k`; `False` on non-dicts (only used where
the value is known to be a dict). -/
def hasKey (v : PyValue) (k : String) : Bool :=
  match v with
  | .dict kvs => (lookupKey kvs k).isSome
  | _ => false

/-- `d.get(k, default)` on a dict. -/
def dictGetD (v : PyValue) (k : String) (dflt : PyValue) : PyValue :=
  match v with
  | .dict kvs => (lookupKey kvs k).getD dflt
  | _ => dflt

/-! ## `src/ai.py` — `InterviewAI` -/

/-- One question record of the fallback set, before it is packed into a
Python dict: the three f-string fields of `_create_fallback_questions`. -/
structure FallbackSlot where
  question : String
  answer : String
  difficulty : String
deriving DecidableEq

/-- The five fallback records of `InterviewAI._create_fallback_questions`,
with the topic substituted exactly where the source f-strings mention it. -/
def fallbackSlots (topic : String) : List FallbackSlot :=
  [ ⟨"What are the key concepts and principles in " ++ topic ++ "?",
     "The key concepts in " ++ topic ++ " include fundamental principles, best practices, and core methodologies that form the foundation of this field.",
     "Intermediate"⟩,
    ⟨"How would you explain " ++ topic ++ " to someone with no technical background?",
     "I would use analogies and simple language to explain " ++ topic ++ ", focusing on practical benefits and real-world applications.",
     "Intermediate"⟩,
    ⟨"What are the most common challenges when working with " ++ topic ++ "?",
     "Common challenges include complexity management, performance optimization, and maintaining code quality while scaling applications.",
     "Advanced"⟩,
    ⟨"Can you describe a real-world project where you applied " ++ topic ++ "?",
     "In a real-world project, I would apply " ++ topic ++ " by identifying specific use cases, implementing best practices, and measuring success through key metrics.",
     "Advanced"⟩,
    ⟨"What resources would you recommend for someone learning " ++ topic ++ "?",
     "I recommend official documentation, hands-on projects, online courses, and community forums for comprehensive learning of " ++ topic ++ ".",
     "Intermediate"⟩ ]

/-- Pack a fallback record into the Python dict literal of the source. -/
def slotToDict (s : FallbackSlot) : PyValue :=
  .dict [("question", .str s.question), ("answer", .str s.answer),
         ("difficulty", .str s.difficulty)]

/-- `InterviewAI._create_fallback_questions(topic)`: the list of five
fixed-template question dicts. -/
def create_fallback_questions (topic : String) : PyValue :=
  .list ((fallbackSlots topic).map slotToDict)

/-- Outcome of the remote text-generation round trip as the source code
distinguishes them: `exn` is any exception raised by the `self.llm(messages)`
call (transport error, timeout, auth failure, …), `decodeError` is a reply
whose text makes `json.loads` raise `JSONDecodeError`, and `parsed v` is a
reply whose text parses to the Python value `v`. -/
inductive LLMOutcome where
  | exn
  | decodeError
  | parsed (v : PyValue)

/-- `InterviewAI.generate_interview_questions(topic)`, as a function of the
remote outcome.  A parsed reply is returned verbatim when `len` of it is 5;
a `len` of anything else falls back, and a `len` `TypeError` (non-sized
value) is caught by the outer `except Exception` and also falls back. -/
def generate_interview_questions (topic : String) (out : LLMOutcome) : PyValue :=
  match out with
  | .exn => create_fallback_questions topic
  | .decodeError => create_fallback_questions topic
  | .parsed v =>
    match pyLen v with
    | some 5 => v
    | some _ => create_fallback_questions topic
    | Option.none => create_fallback_questions topic

/-- A raised Python exception, as observed by the surrounding handlers (they
catch every `Exception` alike, so the class is not modelled further). -/
inductive PyErr where
  | typeError
  | valueError
  | attributeError
  | keyError
  | overflowError
deriving DecidableEq

/-- Python `str.lower()` (ASCII case folding, which covers every string the
code lowers). -/
def strLower (s : String) : String := String.mk (s.toList.map Char.toLower)

/-- One step of the filter in `get_question_by_difficulty`:
`q.get("difficulty", "").lower() == difficulty.lower()`.  `q.get` raises
`AttributeError` on a non-dict element, and `.lower()` raises on a stored
non-string difficulty value. -/
def difficultyTest (q : PyValue) (difficulty : String) : Except PyErr Bool :=
  match q with
  | .dict kvs =>
    match (lookupKey kvs "difficulty").getD (.str "") with
    | .str s => .ok (strLower s = strLower difficulty)
    | _ => .error .attributeError
  | _ => .error .attributeError

/-- The list comprehension `[q for q in all_questions if ...]` over the
elements of `all_questions`, propagating any exception raised mid-iteration. -/
def filterByDifficulty (difficulty : String) : List PyValue → Except PyErr (List PyValue)
  | [] => .ok []
  | q :: qs =>
    match difficultyTest q difficulty with
    | .error e => .error e
    | .ok b =>
      match filterByDifficulty difficulty qs with
      | .error e => .error e
      | .ok rest => .ok (if b then q :: rest else rest)

/-- Python iteration `for q in x`: elements of a list, single-character
strings of a string, keys of a dict; other values raise `TypeError`. -/
def pyIter : PyValue → Except PyErr (List PyValue)
  | .list xs => .ok xs
  | .str s => .ok (s.toList.map (fun c => .str (String.singleton c)))
  | .dict kvs => .ok (kvs.map (fun p => .str p.1))
  | _ => .error .typeError

/-- `InterviewAI.get_question_by_difficulty(topic, difficulty)` as a function
of the remote outcome.  `"All"` returns the generated value unchanged;
otherwise the generated value is iterated and filtered, so a hostile parsed
reply can make the comprehension raise (propagated to the route handler). -/
def get_question_by_difficulty (topic difficulty : String) (out : LLMOutcome) :
    Except PyErr PyValue :=
  let all_questions := generate_interview_questions topic out
  if difficulty = "All" then .ok all_questions
  else
    match pyIter all_questions with
    | .error e => .error e
    | .ok qs =>
      match filterByDifficulty difficulty qs with
      | .error e => .error e
      | .ok res => .ok (.list res)

/-! ## Python runtime helpers used by `src/app.py` -/

/-- The apostrophe character Python `repr` wraps strings in. -/
def pyQuote : String := String.singleton (Char.ofNat 39)

/-- Decimal rendering of a finite Python float (`str`/`repr` and SQLite TEXT
affinity): sign, integer part, dot, fraction digits with no trailing zeros —
`51/2` renders as `"25.5"`, integral values as `"25.0"`.  Every float the
program can hold has a finite decimal expansion (the denominator divides a
power of ten), so the search below always succeeds on reachable values.
Python's switch to exponent notation for magnitudes of at least 1e16 or
below 1e-4, its shortest-roundtrip rounding of long literals, and the sign
of `-0.0` are not modelled — no claim in scope renders such a float to
text. -/
def floatRepr (q : Rat) : String :=
  let sign := if q.num < 0 then "-" else ""
  let n := q.num.natAbs
  if q.den == 1 then sign ++ toString n ++ ".0"
  else
    match (List.range 400).find? (fun k => q.den ∣ 10 ^ k) with
    | some k =>
      let scaled := n * 10 ^ k / q.den
      let ip := scaled / 10 ^ k
      let fp := toString (scaled % 10 ^ k)
      sign ++ toString ip ++ "." ++
        String.mk (List.replicate (k - fp.length) '0') ++ fp
    | Option.none => sign ++ toString n ++ "/" ++ toString q.den

/-- Text of a Python float, covering the IEEE specials as Python prints
them. -/
def pyFloatRepr : PyFloat → String
  | .finite q => floatRepr q
  | .inf => "inf"
  | .negInf => "-inf"
  | .nan => "nan"

mutual

/-- Python `repr(x)` for the values modelled here.  String escaping of quote
and backslash characters is not modelled (no claim in scope reprs such a
string). -/
def pyRepr : PyValue → String
  | .str s => pyQuote ++ s ++ pyQuote
  | .int n => toString n
  | .float f => pyFloatRepr f
  | .bool b => if b then "True" else "False"
  | .none => "None"
  | .list xs => "[" ++ pyReprJoin xs ++ "]"
  | .dict kvs => "\x7b" ++ pyReprKVJoin kvs ++ "\x7d"

/-- Comma-joined reprs of list elements. -/
def pyReprJoin : List PyValue → String
  | [] => ""
  | [x] => pyRepr x
  | x :: y :: xs => pyRepr x ++ ", " ++ pyReprJoin (y :: xs)

/-- Comma-joined `key: value` reprs of dict entries. -/
def pyReprKVJoin : List (String × PyValue) → String
  | [] => ""
  | [(k, v)] => pyQuote ++ k ++ pyQuote ++ ": " ++ pyRepr v
  | (k, v) :: x :: xs =>
    pyQuote ++ k ++ pyQuote ++ ": " ++ pyRepr v ++ ", " ++ pyReprKVJoin (x :: xs)

end

/-- Python `str(x)`: identity on strings, `repr`-style rendering otherwise. -/
def pyStr : PyValue → String
  | .str s => s
  | v => pyRepr v

/-- The whitespace characters `str.strip()` removes (ASCII set; the exotic
unicode spaces Python also strips are out of scope). -/
def isPySpace (c : Char) : Bool :=
  c = ' ' || c = '\t' || c = '\n' || c = '\r' || c = '\x0b' || c = '\x0c'

/-- Python `str.strip()`. -/
def pyStrip (s : String) : String :=
  String.mk ((((s.toList).dropWhile isPySpace).reverse.dropWhile isPySpace).reverse)

/-- Numeric value of a digit string. -/
def digitsVal (ds : List Char) : Nat :=
  ds.foldl (fun a c => a * 10 + (c.toNat - 48)) 0

/-- Greedy parse of the tail of a digit run with PEP 515 underscores
(`(_?\d)*` after a first digit): digits read and unconsumed remainder; a
trailing or doubled underscore is left unconsumed and fails the caller. -/
def digitsURest : List Char → List Char × List Char
  | '_' :: d :: rest =>
    if d.isDigit then
      let (ds, r) := digitsURest rest
      (d :: ds, r)
    else ([], '_' :: d :: rest)
  | d :: rest =>
    if d.isDigit then
      let (ds, r) := digitsURest rest
      (d :: ds, r)
    else ([], d :: rest)
  | [] => ([], [])

/-- Parse `\d(_?\d)*`: at least one digit, underscores only between digits. -/
def parseDigitsU (cs : List Char) : Option (List Char × List Char) :=
  match cs with
  | c :: rest =>
    if c.isDigit then
      let (ds, r) := digitsURest rest
      some (c :: ds, r)
    else Option.none
  | [] => Option.none

/-- Parse the mantissa of a float literal — `digits`, `digits.`,
`digits.digits` or `.digits` — returning its digit value, the number of
fraction digits, and the remainder (a possible exponent). -/
def parseMantissa (cs : List Char) : Option (Nat × Nat × List Char) :=
  match parseDigitsU cs with
  | some (ip, rest) =>
    match rest with
    | '.' :: rest2 =>
      match parseDigitsU rest2 with
      | some (fp, rest3) => some (digitsVal (ip ++ fp), fp.length, rest3)
      | Option.none => some (digitsVal ip, 0, rest2)
    | _ => some (digitsVal ip, 0, rest)
  | Option.none =>
    match cs with
    | '.' :: rest2 =>
      match parseDigitsU rest2 with
      | some (fp, rest3) => some (digitsVal fp, fp.length, rest3)
      | Option.none => Option.none
    | _ => Option.none

/-- Parse an optional exponent `(e|E)[+|-]digits` that must end the string:
returns (exponent is negative, exponent digits — empty when absent). -/
def parseExpEnd : List Char → Option (Bool × List Char)
  | [] => some (false, [])
  | e :: rest =>
    if e = 'e' || e = 'E' then
      match rest with
      | '+' :: rest2 =>
        match parseDigitsU rest2 with
        | some (ds, r) => if r.isEmpty then some (false, ds) else Option.none
        | Option.none => Option.none
      | '-' :: rest2 =>
        match parseDigitsU rest2 with
        | some (ds, r) => if r.isEmpty then some (true, ds) else Option.none
        | Option.none => Option.none
      | rest2 =>
        match parseDigitsU rest2 with
        | some (ds, r) => if r.isEmpty then some (false, ds) else Option.none
        | Option.none => Option.none
    else Option.none

/-- Integers of magnitude at least this bound overflow `float()`: the
rounding midpoint just above the largest double, `2^1024 - 2^970`. -/
def overflowBoundNat : Nat := 2 ^ 1024 - 2 ^ 970

/-- Clamp an exact rational to double range the way string-to-float
conversion rounds: magnitudes at or above the overflow midpoint give the
signed infinity, magnitudes at or below the underflow midpoint `2^-1075`
give `0.0` (round-half-even on both midpoints); strictly between, the value
stays exact per the `PyFloat` convention. -/
def doubleClamp (v : Rat) : PyFloat :=
  if v = 0 then .finite 0
  else if (overflowBoundNat : Rat) ≤ |v| then (if 0 < v then .inf else .negInf)
  else if |v| * 2 ^ 1075 ≤ 1 then .finite 0
  else .finite v

/-- Negation of a Python float (the parsed leading `-` sign). -/
def pyFloatNeg : PyFloat → PyFloat
  | .finite q => .finite (-q)
  | .inf => .negInf
  | .negInf => .inf
  | .nan => .nan

/-- `float(s)` after stripping and sign handling: `inf`/`infinity`/`nan`
case-insensitively, or a decimal `[digits][.digits][(e|E)[sign]digits]`
with PEP 515 underscores, converted with double overflow/underflow
clamping. -/
def parseFloatBody (cs : List Char) : Option PyFloat :=
  let lower := cs.map Char.toLower
  if lower = ['i', 'n', 'f'] || lower = ['i', 'n', 'f', 'i', 'n', 'i', 't', 'y'] then
    some .inf
  else if lower = ['n', 'a', 'n'] then some .nan
  else
    match parseMantissa cs with
    | some (m, scale, rest) =>
      match parseExpEnd rest with
      | some (eneg, eds) =>
        let e := digitsVal eds
        let mag : Rat :=
          if eneg then (m : Rat) / (10 : Rat) ^ (scale + e)
          else (m : Rat) * (10 : Rat) ^ e / (10 : Rat) ^ scale
        some (doubleClamp mag)
      | Option.none => Option.none
    | Option.none => Option.none

/-- Python `float(x)`: floats pass through, bools and in-range ints coerce
(an int at or beyond double range raises `OverflowError`, which the route's
`except (ValueError, TypeError)` does not catch), strings parse per
`float()`'s grammar (`ValueError` on failure), anything else raises
`TypeError`. -/
def pyFloat : PyValue → Except PyErr PyFloat
  | .int n =>
    if overflowBoundNat ≤ n.natAbs then .error .overflowError
    else .ok (.finite (n : Rat))
  | .float f => .ok f
  | .bool b => .ok (.finite (if b then 1 else 0))
  | .str s =>
    match (((s.toList).dropWhile isPySpace).reverse.dropWhile isPySpace).reverse with
    | '-' :: rest =>
      match parseFloatBody rest with
      | some f => .ok (pyFloatNeg f)
      | Option.none => .error .valueError
    | '+' :: rest =>
      match parseFloatBody rest with
      | some f => .ok f
      | Option.none => .error .valueError
    | cs =>
      match parseFloatBody cs with
      | some f => .ok f
      | Option.none => .error .valueError
  | _ => .error .typeError

/-- Python `x <= 0` on a float (the route's rejection test): false for
`inf` and `nan`, true for `-inf` and nonpositive finite values. -/
def pyFloatNonpos : PyFloat → Bool
  | .finite q => decide (q ≤ 0)
  | .inf => false
  | .negInf => true
  | .nan => false

/-- Python `x > 0` on a float (the spec's validated-amount precondition). -/
def pyFloatPos : PyFloat → Bool
  | .finite q => decide (0 < q)
  | .inf => true
  | .negInf => false
  | .nan => false

/-- Whether the second character list starts with the first. -/
def charsLeadWith : List Char → List Char → Bool
  | [], _ => true
  | _ :: _, [] => false
  | a :: as, b :: bs => a = b && charsLeadWith as bs

/-- Whether the second character list contains the first as a contiguous
run (Python `needle in haystack` on strings). -/
def charsContain (n : List Char) : List Char → Bool
  | [] => n.isEmpty
  | c :: cs => charsLeadWith n (c :: cs) || charsContain n cs

/-- Python `k in x` for a string key: dict key membership, list value
membership, substring test on strings; `TypeError` otherwise. -/
def pyContains (v : PyValue) (k : String) : Except PyErr Bool :=
  match v with
  | .dict kvs => .ok (lookupKey kvs k).isSome
  | .list xs => .ok (xs.any (fun x => match x with | .str s => s == k | _ => false))
  | .str s => .ok (charsContain k.toList s.toList)
  | _ => .error .typeError

/-- Python `x[k]` for a string key: dict lookup (`KeyError` when absent),
`TypeError` on every other value. -/
def pySubscript (v : PyValue) (k : String) : Except PyErr PyValue :=
  match v with
  | .dict kvs =>
    match lookupKey kvs k with
    | some x => .ok x
    | Option.none => .error .keyError
  | _ => .error .typeError

/-- Python `x.get(k)` / `x.get(k, d)` (the latter via `Option.getD`):
defined on dicts, `AttributeError` otherwise. -/
def pyGet (v : PyValue) (k : String) : Except PyErr (Option PyValue) :=
  match v with
  | .dict kvs => .ok (lookupKey kvs k)
  | _ => .error .attributeError

/-! ## `datetime.strptime(date, "%Y-%m-%d")` -/

/-- The `%m` piece of CPython's compiled `strptime` pattern together with
the following literal dash: the ordered regex alternatives
`1[0-2]|0[1-9]|[1-9]`, each followed by `-`.  When a two-digit alternative
matches but no dash follows, the one-digit fallback cannot succeed either
(the next character is then a digit, not a dash), so committing here is
faithful to the backtracking regex engine. -/
def parseMonthDash : List Char → Option (Nat × List Char)
  | '1' :: rest =>
    (match rest with
     | x :: rest2 =>
       if '0' ≤ x && x ≤ '2' then
         match rest2 with
         | '-' :: rest3 => some (10 + (x.toNat - 48), rest3)
         | _ => Option.none
       else if x = '-' then some (1, rest2)
       else Option.none
     | [] => Option.none)
  | '0' :: x :: rest2 =>
    if '1' ≤ x && x ≤ '9' then
      match rest2 with
      | '-' :: rest3 => some (x.toNat - 48, rest3)
      | _ => Option.none
    else Option.none
  | c :: '-' :: rest2 =>
    if '2' ≤ c && c ≤ '9' then some (c.toNat - 48, rest2)
    else Option.none
  | _ => Option.none

/-- The `%d` piece of CPython's compiled `strptime` pattern, which must
consume the rest of the string: the ordered regex alternatives
`3[01]|[12]\d|0[1-9]|[1-9]| [1-9]` (the last is a space-padded single
digit). -/
def parseDayEnd : List Char → Option Nat
  | ['3', x] =>
    if x = '0' || x = '1' then some (30 + (x.toNat - 48)) else Option.none
  | [a, b] =>
    if (a = '1' || a = '2') && b.isDigit then some (digitsVal [a, b])
    else if (a = '0' || a = ' ') && '1' ≤ b && b ≤ '9' then some (b.toNat - 48)
    else Option.none
  | [b] => if '1' ≤ b && b ≤ '9' then some (b.toNat - 48) else Option.none
  | _ => Option.none

/-- The Gregorian leap-year rule `datetime` applies. -/
def isLeapYear (y : Nat) : Bool :=
  y % 4 == 0 && (y % 100 != 0 || y % 400 == 0)

/-- Days in month `m` of year `y`. -/
def daysInMonth (y m : Nat) : Nat :=
  if m == 2 then (if isLeapYear y then 29 else 28)
  else if m == 4 || m == 6 || m == 9 || m == 11 then 30
  else 31

/-- `datetime.strptime(s, "%Y-%m-%d")`: CPython's `TimeRE` compiles this to
`(\d\d\d\d)-(1[0-2]|0[1-9]|[1-9])-(3[01]|[12]\d|0[1-9]|[1-9]| [1-9])` and
requires the whole string to be consumed; the `date` constructor then
rejects year 0 and a day beyond the month's length.  `Option.none` models
the raised `ValueError`.  (Only ASCII digits are modelled; the unicode
digits `\d` also matches are out of scope.) -/
def strptimeYMD (s : String) : Option (Nat × Nat × Nat) :=
  match s.toList with
  | y1 :: y2 :: y3 :: y4 :: '-' :: rest =>
    if y1.isDigit && y2.isDigit && y3.isDigit && y4.isDigit then
      let y := digitsVal [y1, y2, y3, y4]
      match parseMonthDash rest with
      | some (m, rest2) =>
        match parseDayEnd rest2 with
        | some d =>
          if 1 ≤ y && d ≤ daysInMonth y m then some (y, m, d) else Option.none
        | Option.none => Option.none
      | Option.none => Option.none
    else Option.none
  | _ => Option.none

/-- SQLite binding of a Python value into the `TEXT`-affinity `date` column:
strings pass through, numbers and bools are converted to their text form
(TEXT affinity; only the finite-float case is reachable here, since the
route sends only falsy values — `0.0` — down this path).  `Option.none`
stands for the values the insert cannot store (`None` hits the `NOT NULL`
constraint, lists/dicts are unbindable), which raise `sqlite3.Error` and
re-raise out of `add_expense`. -/
def sqliteBindText : PyValue → Option String
  | .str s => some s
  | .int n => some (toString n)
  | .float f => some (pyFloatRepr f)
  | .bool b => some (if b then "1" else "0")
  | _ => Option.none

/-! ## `src/db.py` — `DatabaseManager`

The `expenses` table is modelled as a list of rows in rowid order together
with the `AUTOINCREMENT` sequence (`nextId` = one past the largest rowid
ever issued).  `created_at` (`TIMESTAMP DEFAULT CURRENT_TIMESTAMP`) is
modelled as the clock tick at which the insert ran, rendered to text when
the row is read back. -/

/-- One stored row of the `expenses` table. -/
structure ExpenseRow where
  id : Nat
  amount : PyFloat
  category : String
  note : String
  date : String
  created_at : Nat
deriving DecidableEq

/-- The persistent state of the store. -/
structure DBState where
  rows : List ExpenseRow
  nextId : Nat
deriving DecidableEq

/-- The state after `init_database` on a fresh file. -/
def initState : DBState := ⟨[], 1⟩

/-- `DatabaseManager.add_expense(amount, category, note, date)` run at clock
tick `now` on a day whose `datetime.now().strftime("%Y-%m-%d")` is `today`.
`date=None` is stamped with `today`; the insert appends the row with the
next `AUTOINCREMENT` id, and the returned dict is the literal the source
builds: id, amount, category, note and date — nothing else. -/
def add_expense (s : DBState) (amount : PyFloat) (category : String) (note : String)
    (date : Option String) (today : String) (now : Nat) : PyValue × DBState :=
  let d := date.getD today
  let row : ExpenseRow := ⟨s.nextId, amount, category, note, d, now⟩
  (.dict [("id", .int (s.nextId : Int)), ("amount", .float amount),
          ("category", .str category), ("note", .str note), ("date", .str d)],
   ⟨s.rows ++ [row], s.nextId + 1⟩)

/-- The dict a `SELECT id, amount, category, note, date, created_at` row is
packed into by `get_all_expenses` / `get_expense_by_id`. -/
def rowToDict (r : ExpenseRow) : PyValue :=
  .dict [("id", .int (r.id : Int)), ("amount", .float r.amount),
         ("category", .str r.category), ("note", .str r.note),
         ("date", .str r.date), ("created_at", .str (toString r.created_at))]

/-- Sort key of `ORDER BY date DESC, created_at DESC`: the lexicographic
pair (date, created_at), compared in reverse. -/
def rowKey (r : ExpenseRow) : Lex (String × Nat) := toLex (r.date, r.created_at)

/-- Row comparison realising `ORDER BY date DESC, created_at DESC`. -/
def rowsLE (a b : ExpenseRow) : Prop := rowKey b ≤ rowKey a

instance : DecidableRel rowsLE := fun a b =>
  inferInstanceAs (Decidable (rowKey b ≤ rowKey a))

instance : IsTotal ExpenseRow rowsLE :=
  ⟨fun a b => (le_total (rowKey b) (rowKey a)).imp id id⟩

instance : IsTrans ExpenseRow rowsLE :=
  ⟨fun _ _ _ hab hbc => le_trans hbc hab⟩

/-- The row sequence produced by the `ORDER BY` clause. -/
def sortedRows (s : DBState) : List ExpenseRow := s.rows.insertionSort rowsLE

/-- `DatabaseManager.get_all_expenses()`. -/
def get_all_expenses (s : DBState) : List PyValue := (sortedRows s).map rowToDict

/-- `DatabaseManager.get_expense_by_id(expense_id)`: `fetchone` of
`WHERE id = ?` — the first matching row in rowid order, or `None`. -/
def get_expense_by_id (s : DBState) (eid : Nat) : Option PyValue :=
  (s.rows.find? (fun r => r.id == eid)).map rowToDict

/-- `DatabaseManager.delete_expense(expense_id)`: removes every matching row
and reports `cursor.rowcount > 0`. -/
def delete_expense (s : DBState) (eid : Nat) : Bool × DBState :=
  (s.rows.any (fun r => r.id == eid),
   ⟨s.rows.filter (fun r => r.id != eid), s.nextId⟩)

/-! ## `src/app.py` — the `POST /api/expenses` handler -/

/-- Outcome of the route: a 400-class validation rejection, a 201 success
carrying the `data` field of the envelope, or the 500 branch of the outer
`except Exception`. -/
inductive RouteResult where
  | badRequest (msg : String)
  | created (body : PyValue)
  | serverError

/-- The `add_expense` Flask handler, as a function of the parsed request
body (`Option.none` = `request.get_json()` yielded no data) and the clock.
Mirrors `src/app.py` line by line: the `data['amount']` subscript sits
inside the `try/except (ValueError, TypeError)`, so a non-dict body that
passed the `in` checks is rejected 400 there; `data['category']` and the
`.get` calls sit outside any inner `try`, so failures there hit the outer
`except Exception` (500).  The date check runs only `if date:` — a falsy
supplied date skips it and is passed to the store verbatim. -/
def addExpenseRoute (body : Option PyValue) (s : DBState) (today : String)
    (now : Nat) : RouteResult × DBState :=
  match body with
  | Option.none => (.badRequest "No JSON data provided", s)
  | some data =>
  if !pyTruthy data then (.badRequest "No JSON data provided", s)
  else
    match pyContains data "amount", pyContains data "category" with
    | .error _, _ => (.serverError, s)
    | _, .error _ => (.serverError, s)
    | .ok hasAmount, .ok hasCategory =>
    if !(hasAmount && hasCategory) then (.badRequest "Missing required fields", s)
    else
      match pySubscript data "amount" with
      | .error .typeError => (.badRequest "Amount must be a valid number", s)
      | .error _ => (.serverError, s)
      | .ok av =>
      match pyFloat av with
      | .error .typeError => (.badRequest "Amount must be a valid number", s)
      | .error .valueError => (.badRequest "Amount must be a valid number", s)
      | .error _ => (.serverError, s)
      | .ok amount =>
      if pyFloatNonpos amount then (.badRequest "Amount must be greater than 0", s)
      else
        match pySubscript data "category", pyGet data "note", pyGet data "date" with
        | .error _, _, _ => (.serverError, s)
        | _, .error _, _ => (.serverError, s)
        | _, _, .error _ => (.serverError, s)
        | .ok cv, .ok noteOpt, .ok dateOpt =>
        let category := pyStrip (pyStr cv)
        let note := pyStrip (pyStr (noteOpt.getD (.str "")))
        if category = "" then (.badRequest "Category cannot be empty", s)
        else
          match dateOpt with
          | Option.none =>
            let (ret, s1) := add_expense s amount category note Option.none today now
            (.created ret, s1)
          | some dv =>
            if pyTruthy dv then
              match dv with
              | .str ds =>
                match strptimeYMD ds with
                | Option.none => (.badRequest "Date must be in YYYY-MM-DD format", s)
                | some _ =>
                  let (ret, s1) := add_expense s amount category note (some ds) today now
                  (.created ret, s1)
              | _ => (.serverError, s)
            else
              match dv with
              | .none =>
                let (ret, s1) := add_expense s amount category note Option.none today now
                (.created ret, s1)
              | _ =>
                match sqliteBindText dv with
                | some t =>
                  let (ret, s1) := add_expense s amount category note (some t) today now
                  (.created ret, s1)
                | Option.none => (.serverError, s)

/-! ## Store operation traces (for the storage invariants) -/

/-- A state-changing store operation (`get_expense_by_id` and
`get_all_expenses` read only). -/
inductive LedgerOp where
  | add (amount : PyFloat) (category note : String) (date : Option String)
        (today : String) (now : Nat)
  | delete (eid : Nat)

/-- Effect of one operation on the store. -/
def stepOp (s : DBState) (op : LedgerOp) : DBState :=
  match op with
  | .add a c n d t now => (add_expense s a c n d t now).2
  | .delete e => (delete_expense s e).2

/-- The store after a trace of operations on a fresh database. -/
def runOps (ops : List LedgerOp) : DBState := ops.foldl stepOp initState

/-- The preconditions the spec states for `AddExpense` calls: amount
validated positive, category non-empty, any supplied date a valid
`YYYY-MM-DD` string; `today` is `datetime.now().strftime("%Y-%m-%d")` and
hence always a valid date string, which the model takes as a hypothesis. -/
def ValidOp : LedgerOp → Prop
  | .add a c _ d t _ =>
    pyFloatPos a = true ∧ c ≠ "" ∧ (strptimeYMD t).isSome ∧
      (∀ ds, d = some ds → (strptimeYMD ds).isSome)
  | .delete _ => True

/-- The ids handed out by the `add` operations of a trace, in order. -/
def assignedIds (ops : List LedgerOp) : List Nat :=
  (ops.foldl
    (fun (p : DBState × List Nat) op =>
      match op with
      | .add .. => (stepOp p.1 op, p.2 ++ [p.1.nextId])
      | .delete _ => (stepOp p.1 op, p.2))
    (initState, [])).2

/-! ## Helper lemmas -/

/-- The fallback set has Python length 5. -/
theorem pyLen_fallback (topic : String) :
    pyLen (create_fallback_questions topic) = some 5 := rfl

/-- Whatever the remote outcome, `generate_interview_questions` returns a
value of Python length 5. -/
theorem pyLen_generate (topic : String) (out : LLMOutcome) :
    pyLen (generate_interview_questions topic out) = some 5 := by
  cases out with
  | exn => exact pyLen_fallback topic
  | decodeError => exact pyLen_fallback topic
  | parsed v =>
    unfold generate_interview_questions
    cases hl : pyLen v with
    | none => simp [hl, pyLen_fallback]
    | some n =>
      by_cases h5 : n = 5
      · subst h5; simp [hl]
      · simp [hl, h5, pyLen_fallback]

/-- Test the comprehension applies, as a Bool. -/
def difficultyKeep (d : String) (q : PyValue) : Bool :=
  match difficultyTest q d with
  | .ok true => true
  | _ => false

/-- When every element admits the difficulty test, the comprehension returns
the filtered list. -/
theorem filterByDifficulty_eq_filter (d : String) (qs : List PyValue)
    (h : ∀ q ∈ qs, ∃ b, difficultyTest q d = .ok b) :
    filterByDifficulty d qs = .ok (qs.filter (difficultyKeep d)) := by
  induction qs with
  | nil => rfl
  | cons q qs ih =>
    obtain ⟨b, hb⟩ := h q (List.mem_cons_self q qs)
    have hrest := ih (fun x hx => h x (List.mem_cons_of_mem q hx))
    unfold filterByDifficulty
    rw [hb, hrest]
    cases b <;> simp [List.filter, difficultyKeep, hb]

/-- An element the difficulty test rejects never appears in a successful
comprehension result. -/
theorem not_mem_filterByDifficulty (d : String) (q : PyValue)
    (hq : difficultyTest q d = .ok false) :
    ∀ qs res, filterByDifficulty d qs = .ok res → q ∉ res := by
  intro qs
  induction qs with
  | nil => intro res h; cases h; simp
  | cons x xs ih =>
    intro res h
    unfold filterByDifficulty at h
    cases hx : difficultyTest x d with
    | error e => rw [hx] at h; cases h
    | ok b =>
      rw [hx] at h
      cases hrest : filterByDifficulty d xs with
      | error e => rw [hrest] at h; cases h
      | ok rest =>
        rw [hrest] at h
        cases h
        cases b with
        | false => simpa using ih rest hrest
        | true =>
          simp only [if_pos trivial, List.mem_cons]
          intro hmem
          rcases hmem with heq | hmem
          · subst heq; rw [hq] at hx; cases hx
          · exact ih rest hrest hmem

/-! ## Claims about `src/ai.py` -/

/-- C1: for every topic and every outcome of the remote call,
`generate_interview_questions` returns a value of Python length 5, never an
error; a parsed reply of length 5 is returned as-is, and every other outcome
(exception, JSON decode failure, parsed reply whose `len` is not 5 or whose
`len` raises) yields exactly the five fallback templates with the topic
substituted. -/
theorem generate_questions_always_five (topic : String) (out : LLMOutcome) :
    pyLen (generate_interview_questions topic out) = some 5 ∧
    (∀ v, out = .parsed v → pyLen v = some 5 →
      generate_interview_questions topic out = v) ∧
    ((∀ v, out = .parsed v → pyLen v ≠ some 5) →
      generate_interview_questions topic out = create_fallback_questions topic) := by
  refine ⟨pyLen_generate topic out, ?_, ?_⟩
  · rintro v rfl h5
    simp [generate_interview_questions, h5]
  · intro hfail
    cases out with
    | exn => rfl
    | decodeError => rfl
    | parsed v =>
      have hne := hfail v rfl
      unfold generate_interview_questions
      cases hl : pyLen v with
      | none => simp [hl]
      | some n =>
        have : n ≠ 5 := by rintro rfl; exact hne hl
        simp [hl, this]

/-- Closed instance of C1 at a transport error. -/
theorem generate_questions_always_five_witness :
    pyLen (generate_interview_questions "Java" .exn) = some 5 ∧
    generate_interview_questions "Java" .exn = create_fallback_questions "Java" :=
  ⟨(generate_questions_always_five "Java" .exn).1,
   (generate_questions_always_five "Java" .exn).2.2 (fun _ h => nomatch h)⟩

/-- Modelled from the spec, §6: the literal fallback question templates and
their fixed difficulty tags, in the order the spec lists them. -/
def specFallbackTemplates (topic : String) : List (String × String) :=
  [("What are the key concepts and principles in " ++ topic ++ "?", "Intermediate"),
   ("How would you explain " ++ topic ++ " to someone with no technical background?", "Intermediate"),
   ("What are the most common challenges when working with " ++ topic ++ "?", "Advanced"),
   ("Can you describe a real-world project where you applied " ++ topic ++ "?", "Advanced"),
   ("What resources would you recommend for someone learning " ++ topic ++ "?", "Intermediate")]

/-- C6 counterexample: the slot-3 fallback answer is the same string for two
different topics (no topic substitution happens in it), although the slot-3
questions do differ — refuting the claim that the topic is substituted into
each fixed-template answer. -/
theorem fallback_slot3_answer_ignores_topic :
    ((fallbackSlots "Rust").map FallbackSlot.answer).get? 2 =
      ((fallbackSlots "OCaml").map FallbackSlot.answer).get? 2 ∧
    ((fallbackSlots "Rust").map FallbackSlot.question).get? 2 ≠
      ((fallbackSlots "OCaml").map FallbackSlot.question).get? 2 := by
  refine ⟨rfl, ?_⟩
  simp [fallbackSlots]

/-- C6 (amended): the fallback path produces exactly the five literal
templates of the spec in order — questions and difficulty tags match the
spec list with the topic substituted into every question — and the topic is
substituted into the answers of slots 1, 2, 4, 5, while slot 3 carries a
fixed answer that never mentions the topic. -/
theorem fallback_matches_spec_templates (topic : String) :
    (fallbackSlots topic).map (fun s => (s.question, s.difficulty)) =
      specFallbackTemplates topic ∧
    create_fallback_questions topic = .list ((fallbackSlots topic).map slotToDict) ∧
    (∀ i, i = 0 ∨ i = 1 ∨ i = 3 ∨ i = 4 →
      ∃ pre post,
        ((fallbackSlots topic).map FallbackSlot.answer).get? i =
          some (pre ++ topic ++ post)) ∧
    ((fallbackSlots topic).map FallbackSlot.answer).get? 2 =
      some "Common challenges include complexity management, performance optimization, and maintaining code quality while scaling applications." := by
  refine ⟨rfl, rfl, ?_, rfl⟩
  rintro i (rfl | rfl | rfl | rfl)
  · exact ⟨"The key concepts in ",
      " include fundamental principles, best practices, and core methodologies that form the foundation of this field.", rfl⟩
  · exact ⟨"I would use analogies and simple language to explain ",
      ", focusing on practical benefits and real-world applications.", rfl⟩
  · exact ⟨"In a real-world project, I would apply ",
      " by identifying specific use cases, implementing best practices, and measuring success through key metrics.", rfl⟩
  · exact ⟨"I recommend official documentation, hands-on projects, online courses, and community forums for comprehensive learning of ",
      ".", rfl⟩

/-- Closed instance of the amended C6 at topic `"Java"`, slot 1. -/
theorem fallback_matches_spec_templates_witness :
    ∃ pre post,
      ((fallbackSlots "Java").map FallbackSlot.answer).get? 0 =
        some (pre ++ "Java" ++ post) :=
  (fallback_matches_spec_templates "Java").2.2.1 0 (Or.inl rfl)

/-- C5: `get_question_by_difficulty` with `"All"` returns the generated set
unchanged; with a recognized specific difficulty it returns, in original
order, exactly the generated items whose difficulty field case-insensitively
equals the request (0 to 5 items, no error, as long as each item admits the
test); on a forced-fallback set, `"Advanced"` yields exactly fallback items
3 and 4 in order and `"Beginner"` yields the empty list. -/
theorem questions_by_difficulty_filtering (topic : String) (out : LLMOutcome)
    (d : String) (qs : List PyValue)
    (hd : d = "Beginner" ∨ d = "Intermediate" ∨ d = "Advanced")
    (hout : generate_interview_questions topic out = .list qs)
    (hok : ∀ q ∈ qs, ∃ b, difficultyTest q d = .ok b) :
    get_question_by_difficulty topic "All" out =
      .ok (generate_interview_questions topic out) ∧
    get_question_by_difficulty topic d out =
      .ok (.list (qs.filter (difficultyKeep d))) ∧
    (qs.filter (difficultyKeep d)).length ≤ 5 ∧
    get_question_by_difficulty topic "Advanced" .exn =
      .ok (.list ((((fallbackSlots topic).map slotToDict).drop 2).take 2)) ∧
    get_question_by_difficulty topic "Beginner" .exn = .ok (.list []) := by
  have h5 : qs.length = 5 := by
    have hlen := pyLen_generate topic out
    rw [hout] at hlen
    simpa [pyLen] using hlen
  refine ⟨rfl, ?_, ?_, ?_, ?_⟩
  · have hne : ¬(d = "All") := by
      rcases hd with rfl | rfl | rfl <;> decide
    unfold get_question_by_difficulty
    rw [hout, if_neg hne]
    simp [pyIter, filterByDifficulty_eq_filter d qs hok]
  · exact (List.length_filter_le _ _).trans_eq h5
  · rfl
  · rfl

/-- Closed instance of C5 on the forced-fallback set for topic `"Java"`. -/
theorem questions_by_difficulty_filtering_witness :
    get_question_by_difficulty "Java" "Advanced" .exn =
      .ok (.list ((((fallbackSlots "Java").map slotToDict).drop 2).take 2)) ∧
    get_question_by_difficulty "Java" "Beginner" .exn = .ok (.list []) := by
  have hok : ∀ q ∈ (fallbackSlots "Java").map slotToDict,
      ∃ b, difficultyTest q "Advanced" = .ok b := by
    intro q hq
    simp [fallbackSlots, slotToDict] at hq
    rcases hq with rfl | rfl | rfl | rfl | rfl
    exacts [⟨false, rfl⟩, ⟨false, rfl⟩, ⟨true, rfl⟩, ⟨true, rfl⟩, ⟨false, rfl⟩]
  have h := questions_by_difficulty_filtering "Java" .exn "Advanced"
    ((fallbackSlots "Java").map slotToDict) (Or.inr (Or.inr rfl)) rfl hok
  exact ⟨h.2.2.2.1, h.2.2.2.2⟩

/-- C10: a reply that parses with `len` 5 passes the gate verbatim — no
check that it is a list of dicts or that elements carry the question, answer
and difficulty fields; consequently an element that is a dict without a
`difficulty` key is treated as difficulty `""` by the filter, excluded from
every specific-difficulty request, yet still returned under `"All"`. -/
theorem parsed_reply_only_count_checked (topic : String) (v : PyValue)
    (qs : List PyValue) (kvs : List (String × PyValue)) (d : String)
    (hv : pyLen v = some 5)
    (hqs : qs.length = 5)
    (hq : PyValue.dict kvs ∈ qs)
    (hnokey : lookupKey kvs "difficulty" = Option.none)
    (hd : d = "Beginner" ∨ d = "Intermediate" ∨ d = "Advanced") :
    generate_interview_questions topic (.parsed v) = v ∧
    difficultyTest (.dict kvs) d = .ok false ∧
    (∀ res, get_question_by_difficulty topic d (.parsed (.list qs)) = .ok (.list res) →
      PyValue.dict kvs ∉ res) ∧
    get_question_by_difficulty topic "All" (.parsed (.list qs)) = .ok (.list qs) := by
  have hgen : generate_interview_questions topic (.parsed (.list qs)) = .list qs := by
    simp [generate_interview_questions, pyLen, hqs]
  have htest : difficultyTest (.dict kvs) d = .ok false := by
    rcases hd with rfl | rfl | rfl <;> (simp [difficultyTest, hnokey]; decide)
  refine ⟨by simp [generate_interview_questions, hv], htest, ?_, ?_⟩
  · intro res hres
    have hne : ¬(d = "All") := by
      rcases hd with rfl | rfl | rfl <;> decide
    unfold get_question_by_difficulty at hres
    rw [hgen, if_neg hne] at hres
    simp only [pyIter] at hres
    cases hfil : filterByDifficulty d qs with
    | error e => rw [hfil] at hres; cases hres
    | ok r =>
      rw [hfil] at hres
      injection hres with h
      injection h with h2
      subst h2
      exact not_mem_filterByDifficulty d _ htest qs _ hfil
  · simp [get_question_by_difficulty, hgen]

/-- Closed instance of C10: a parsed 5-character string passes the gate, and
a dict item of a parsed 5-list with no difficulty key is dropped by the
`"Advanced"` filter but kept under `"All"`. -/
theorem parsed_reply_only_count_checked_witness :
    generate_interview_questions "Go" (.parsed (.str "abcde")) = .str "abcde" ∧
    (∀ res,
      get_question_by_difficulty "Go" "Advanced"
          (.parsed (.list (List.replicate 5 (.dict [("question", .str "q")])))) =
        .ok (.list res) →
      PyValue.dict [("question", .str "q")] ∉ res) ∧
    get_question_by_difficulty "Go" "All"
        (.parsed (.list (List.replicate 5 (.dict [("question", .str "q")])))) =
      .ok (.list (List.replicate 5 (.dict [("question", .str "q")]))) := by
  have h1 := parsed_reply_only_count_checked "Go" (.str "abcde")
    (List.replicate 5 (.dict [("question", .str "q")])) [("question", .str "q")]
    "Advanced" rfl rfl (by simp [List.mem_replicate]) rfl (Or.inr (Or.inr rfl))
  exact ⟨h1.1, h1.2.2.1, h1.2.2.2⟩

/-! ## Claims about `src/db.py` -/

/-- C2 counterexample: the dict `add_expense` returns has no `created_at`
key at all, even though the stored row's `created_at` is set to the insert
tick — refuting the claim that the full stored record including `created_at`
is returned. -/
theorem add_expense_return_lacks_created_at :
    hasKey (add_expense initState (.finite 10) "Food" "" Option.none
      "2024-01-15" 3).1 "created_at" = false ∧
    (add_expense initState (.finite 10) "Food" "" Option.none
      "2024-01-15" 3).2.rows.map (fun r => r.created_at) = [3] :=
  ⟨rfl, rfl⟩

/-- C2 (amended): for every valid input, `add_expense` returns a record with
the generated id and the submitted amount, category, note and date, and
appends a stored row whose `created_at` is stamped at insert time — but the
returned record itself does not contain `created_at`. -/
theorem add_expense_returns_record (s : DBState) (amount : Rat)
    (category note : String) (date : Option String) (today : String) (now : Nat)
    (hamt : 0 < amount) (hcat : category ≠ "") :
    (add_expense s (.finite amount) category note date today now).1 =
      .dict [("id", .int (s.nextId : Int)), ("amount", .float (.finite amount)),
             ("category", .str category), ("note", .str note),
             ("date", .str (date.getD today))] ∧
    hasKey (add_expense s (.finite amount) category note date today now).1
      "created_at" = false ∧
    (add_expense s (.finite amount) category note date today now).2.rows =
      s.rows ++ [⟨s.nextId, .finite amount, category, note, date.getD today, now⟩] := by
  exact ⟨rfl, rfl, rfl⟩

/-- Closed instance of the amended C2. -/
theorem add_expense_returns_record_witness :
    (add_expense initState (.finite 5) "Transport" "bus" (some "2024-02-02")
        "2024-01-01" 9).1 =
      .dict [("id", .int 1), ("amount", .float (.finite 5)),
             ("category", .str "Transport"),
             ("note", .str "bus"), ("date", .str "2024-02-02")] ∧
    hasKey (add_expense initState (.finite 5) "Transport" "bus"
        (some "2024-02-02") "2024-01-01" 9).1 "created_at" = false ∧
    (add_expense initState (.finite 5) "Transport" "bus" (some "2024-02-02")
        "2024-01-01" 9).2.rows =
      [⟨1, .finite 5, "Transport", "bus", "2024-02-02", 9⟩] := by
  have h := add_expense_returns_record initState 5 "Transport" "bus"
    (some "2024-02-02") "2024-01-01" 9 (by norm_num) (by decide)
  exact ⟨h.1, h.2.1, h.2.2⟩

/-- C4: the sequence `get_all_expenses` returns is the row list sorted by
`ORDER BY date DESC, created_at DESC`: whenever position `i` precedes
position `j`, the earlier record has the strictly larger date, or the same
date and a `created_at` at least as large; and an empty ledger yields the
empty sequence, not an error. -/
theorem list_expenses_ordered (s : DBState) (i j : Nat)
    (hi : i < (sortedRows s).length) (hj : j < (sortedRows s).length)
    (hij : i < j) :
    get_all_expenses s = (sortedRows s).map rowToDict ∧
    (s.rows = [] → get_all_expenses s = []) ∧
    (((sortedRows s).get ⟨j, hj⟩).date < ((sortedRows s).get ⟨i, hi⟩).date ∨
      (((sortedRows s).get ⟨i, hi⟩).date = ((sortedRows s).get ⟨j, hj⟩).date ∧
       ((sortedRows s).get ⟨j, hj⟩).created_at ≤
         ((sortedRows s).get ⟨i, hi⟩).created_at)) := by
  refine ⟨rfl, ?_, ?_⟩
  · intro h
    simp [get_all_expenses, sortedRows, h, List.insertionSort]
  · have hs : (sortedRows s).Sorted rowsLE := List.sorted_insertionSort rowsLE s.rows
    have hrel := @List.Sorted.rel_get_of_lt ExpenseRow rowsLE (sortedRows s) hs
      ⟨i, hi⟩ ⟨j, hj⟩ hij
    rcases (Prod.Lex.le_iff _ _).mp hrel with h | ⟨h1, h2⟩
    · exact Or.inl h
    · exact Or.inr ⟨h1.symm, h2⟩

/-- Closed instance of C4 on a two-row ledger. -/
theorem list_expenses_ordered_witness :
    (((sortedRows ⟨[⟨1, .finite 3, "Food", "", "2024-01-15", 1⟩,
                    ⟨2, .finite 4, "Fuel", "", "2024-01-16", 2⟩], 3⟩).get
        ⟨1, by rw [sortedRows, List.length_insertionSort]; norm_num⟩).date <
      ((sortedRows ⟨[⟨1, .finite 3, "Food", "", "2024-01-15", 1⟩,
                     ⟨2, .finite 4, "Fuel", "", "2024-01-16", 2⟩], 3⟩).get
        ⟨0, by rw [sortedRows, List.length_insertionSort]; norm_num⟩).date) ∨
    (((sortedRows ⟨[⟨1, .finite 3, "Food", "", "2024-01-15", 1⟩,
                    ⟨2, .finite 4, "Fuel", "", "2024-01-16", 2⟩], 3⟩).get
        ⟨0, by rw [sortedRows, List.length_insertionSort]; norm_num⟩).date =
      ((sortedRows ⟨[⟨1, .finite 3, "Food", "", "2024-01-15", 1⟩,
                     ⟨2, .finite 4, "Fuel", "", "2024-01-16", 2⟩], 3⟩).get
        ⟨1, by rw [sortedRows, List.length_insertionSort]; norm_num⟩).date ∧
     ((sortedRows ⟨[⟨1, .finite 3, "Food", "", "2024-01-15", 1⟩,
                    ⟨2, .finite 4, "Fuel", "", "2024-01-16", 2⟩], 3⟩).get
        ⟨1, by rw [sortedRows, List.length_insertionSort]; norm_num⟩).created_at ≤
      ((sortedRows ⟨[⟨1, .finite 3, "Food", "", "2024-01-15", 1⟩,
                     ⟨2, .finite 4, "Fuel", "", "2024-01-16", 2⟩], 3⟩).get
        ⟨0, by rw [sortedRows, List.length_insertionSort]; norm_num⟩).created_at) :=
  (list_expenses_ordered _ 0 1 (by rw [sortedRows, List.length_insertionSort]; norm_num)
    (by rw [sortedRows, List.length_insertionSort]; norm_num) (by norm_num)).2.2

/-- C7: `delete_expense` returns true exactly when a row with the id existed
(and removes it); afterwards `get_expense_by_id` yields `None`, and a second
delete of the same id returns false.  Deleting a non-existent id is not an
error: the call still returns, with false. -/
theorem delete_then_get_semantics (s : DBState) (eid : Nat) :
    ((delete_expense s eid).1 = true ↔ ∃ r ∈ s.rows, r.id = eid) ∧
    get_expense_by_id (delete_expense s eid).2 eid = Option.none ∧
    (delete_expense (delete_expense s eid).2 eid).1 = false := by
  refine ⟨?_, ?_, ?_⟩
  · simp [delete_expense]
  · simp [get_expense_by_id, delete_expense, List.find?_eq_none, List.mem_filter]
  · simp [delete_expense, List.any_eq_true, List.mem_filter]

/-- Closed instance of C7 on a one-row ledger. -/
theorem delete_then_get_semantics_witness :
    ((delete_expense ⟨[⟨1, .finite 2, "Food", "", "2024-01-15", 1⟩], 2⟩ 1).1 = true ↔
      ∃ r ∈ [(⟨1, .finite 2, "Food", "", "2024-01-15", 1⟩ : ExpenseRow)], r.id = 1) ∧
    get_expense_by_id (delete_expense ⟨[⟨1, .finite 2, "Food", "", "2024-01-15", 1⟩], 2⟩ 1).2 1 =
      Option.none ∧
    (delete_expense (delete_expense ⟨[⟨1, .finite 2, "Food", "", "2024-01-15", 1⟩], 2⟩ 1).2 1).1 =
      false :=
  delete_then_get_semantics ⟨[⟨1, .finite 2, "Food", "", "2024-01-15", 1⟩], 2⟩ 1

/-- C8: on a store whose ids respect the autoincrement bound, a valid
`add_expense` followed by `get_expense_by_id` on the generated id finds the
stored row, and the fetched record agrees with the returned one on every
field the return carries — id, amount, category, note, date — while
`created_at` exists only on the fetched side. -/
theorem add_then_get_roundtrip (s : DBState) (amount : Rat)
    (category note : String) (date : Option String) (today : String) (now : Nat)
    (hamt : 0 < amount) (hcat : pyStrip category ≠ "")
    (hids : ∀ r ∈ s.rows, r.id < s.nextId) :
    get_expense_by_id (add_expense s (.finite amount) category note date
        today now).2 s.nextId =
      some (rowToDict
        ⟨s.nextId, .finite amount, category, note, date.getD today, now⟩) ∧
    dictGetD (add_expense s (.finite amount) category note date today now).1
      "id" .none = .int (s.nextId : Int) ∧
    (∀ k, k = "id" ∨ k = "amount" ∨ k = "category" ∨ k = "note" ∨ k = "date" →
      dictGetD (rowToDict
          ⟨s.nextId, .finite amount, category, note, date.getD today, now⟩)
          k .none =
        dictGetD (add_expense s (.finite amount) category note date today now).1
          k .none) ∧
    hasKey (rowToDict
        ⟨s.nextId, .finite amount, category, note, date.getD today, now⟩)
      "created_at" = true := by
  refine ⟨?_, rfl, ?_, rfl⟩
  · have hnone : s.rows.find? (fun r => r.id == s.nextId) = Option.none := by
      rw [List.find?_eq_none]
      intro r hr
      simpa using Nat.ne_of_lt (hids r hr)
    simp [get_expense_by_id, add_expense, List.find?_append, hnone]
  · rintro k (rfl | rfl | rfl | rfl | rfl) <;> rfl

/-- Closed instance of C8 on the fresh store. -/
theorem add_then_get_roundtrip_witness :
    get_expense_by_id (add_expense initState (.finite 10) "Food" "lunch"
        (some "2024-01-15") "2024-01-01" 4).2 1 =
      some (rowToDict ⟨1, .finite 10, "Food", "lunch", "2024-01-15", 4⟩) ∧
    dictGetD (add_expense initState (.finite 10) "Food" "lunch"
        (some "2024-01-15") "2024-01-01" 4).1 "id" .none = .int 1 := by
  have h := add_then_get_roundtrip initState 10 "Food" "lunch"
    (some "2024-01-15") "2024-01-01" 4 (by norm_num) (by decide)
    (by intro r hr; cases hr)
  exact ⟨h.1, h.2.1⟩

/-! ## Claims about `src/app.py` -/

set_option maxRecDepth 8192 in
/-- C3 counterexample: a supplied date `""` does not parse as `YYYY-MM-DD`,
yet the handler returns 201 and `add_expense` is invoked, storing the empty
date verbatim — the `if date:` guard skips date validation for falsy values,
so the claim that every unparseable supplied date is rejected with a 400 and
never reaches `AddExpense` is false. -/
theorem empty_date_bypasses_validation :
    strptimeYMD "" = Option.none ∧
    addExpenseRoute
        (some (.dict [("amount", .int 10), ("category", .str "Food"),
                      ("date", .str "")]))
        initState "2024-01-15" 3 =
      (.created (.dict [("id", .int 1), ("amount", .float (.finite 10)),
                        ("category", .str "Food"), ("note", .str ""),
                        ("date", .str "")]),
       ⟨[⟨1, .finite 10, "Food", "", "", 3⟩], 2⟩) ∧
    (⟨[⟨1, .finite 10, "Food", "", "", 3⟩], 2⟩ : DBState).rows ≠ [] := by
  refine ⟨rfl, rfl, by simp⟩

/-- C3 (amended): the handler rejects with a 400 validation error, without
invoking `add_expense` (state unchanged), when the body is absent or falsy,
an `amount`/`category` key is missing, `float(amount)` raises `ValueError`
or `TypeError`, the coerced amount satisfies `amount <= 0` (which a NaN or
`+inf` amount does not — those are stored; an out-of-double-range int
raises `OverflowError` into the 500 branch), the category trims to empty,
or a supplied *truthy string* date fails `YYYY-MM-DD` parsing;
`add_expense` is invoked when the other checks pass and the date is absent
or a valid truthy string — but a falsy supplied date bypasses the date
check (see the counterexample) and a truthy non-string date raises into
the 500 branch, neither matching the claimed 400-for-every-bad-date
behaviour. -/
theorem add_expense_route_validation (s : DBState) (today : String) (now : Nat)
    (kvs : List (String × PyValue)) :
    addExpenseRoute Option.none s today now =
      (.badRequest "No JSON data provided", s) ∧
    (∀ v, pyTruthy v = false →
      addExpenseRoute (some v) s today now =
        (.badRequest "No JSON data provided", s)) ∧
    ((lookupKey kvs "amount" = Option.none ∨ lookupKey kvs "category" = Option.none) →
      kvs ≠ [] →
      addExpenseRoute (some (.dict kvs)) s today now =
        (.badRequest "Missing required fields", s)) ∧
    (∀ av e, lookupKey kvs "amount" = some av → (lookupKey kvs "category").isSome →
      pyFloat av = .error e → (e = .typeError ∨ e = .valueError) →
      addExpenseRoute (some (.dict kvs)) s today now =
        (.badRequest "Amount must be a valid number", s)) ∧
    (∀ av amount, lookupKey kvs "amount" = some av →
      (lookupKey kvs "category").isSome →
      pyFloat av = .ok amount → pyFloatNonpos amount = true →
      addExpenseRoute (some (.dict kvs)) s today now =
        (.badRequest "Amount must be greater than 0", s)) ∧
    (∀ av amount cv, lookupKey kvs "amount" = some av →
      lookupKey kvs "category" = some cv →
      pyFloat av = .ok amount → pyFloatNonpos amount = false →
      pyStrip (pyStr cv) = "" →
      addExpenseRoute (some (.dict kvs)) s today now =
        (.badRequest "Category cannot be empty", s)) ∧
    (∀ av amount cv ds, lookupKey kvs "amount" = some av →
      lookupKey kvs "category" = some cv →
      pyFloat av = .ok amount → pyFloatNonpos amount = false →
      pyStrip (pyStr cv) ≠ "" →
      lookupKey kvs "date" = some (.str ds) → ds ≠ "" →
      strptimeYMD ds = Option.none →
      addExpenseRoute (some (.dict kvs)) s today now =
        (.badRequest "Date must be in YYYY-MM-DD format", s)) ∧
    (∀ av amount cv, lookupKey kvs "amount" = some av →
      lookupKey kvs "category" = some cv →
      pyFloat av = .ok amount → pyFloatNonpos amount = false →
      pyStrip (pyStr cv) ≠ "" →
      (lookupKey kvs "date" = Option.none →
        addExpenseRoute (some (.dict kvs)) s today now =
          (.created (add_expense s amount (pyStrip (pyStr cv))
              (pyStrip (pyStr ((lookupKey kvs "note").getD (.str ""))))
              Option.none today now).1,
           (add_expense s amount (pyStrip (pyStr cv))
              (pyStrip (pyStr ((lookupKey kvs "note").getD (.str ""))))
              Option.none today now).2)) ∧
      (∀ ds, lookupKey kvs "date" = some (.str ds) → ds ≠ "" →
        (strptimeYMD ds).isSome →
        addExpenseRoute (some (.dict kvs)) s today now =
          (.created (add_expense s amount (pyStrip (pyStr cv))
              (pyStrip (pyStr ((lookupKey kvs "note").getD (.str ""))))
              (some ds) today now).1,
           (add_expense s amount (pyStrip (pyStr cv))
              (pyStrip (pyStr ((lookupKey kvs "note").getD (.str ""))))
              (some ds) today now).2))) := by
  refine ⟨rfl, ?_, ?_, ?_, ?_, ?_, ?_, ?_⟩
  · intro v hv
    simp [addExpenseRoute, hv]
  · intro hmiss hne
    rcases hmiss with h | h <;>
      simp [addExpenseRoute, pyTruthy, hne, pyContains, h]
  · intro av e h1 h2 h3 he
    have hne : kvs ≠ [] := by rintro rfl; simp [lookupKey] at h1
    unfold addExpenseRoute
    rcases he with rfl | rfl <;>
      simp [pyTruthy, hne, pyContains, h1, pySubscript, h3, h2]
  · intro av amount h1 h2 h3 h4
    have hne : kvs ≠ [] := by rintro rfl; simp [lookupKey] at h1
    unfold addExpenseRoute
    simp [pyTruthy, hne, pyContains, h1, pySubscript, h3, h4, h2]
  · intro av amount cv h1 h2 h3 h4 h5
    have hne : kvs ≠ [] := by rintro rfl; simp [lookupKey] at h1
    unfold addExpenseRoute
    simp [pyTruthy, hne, pyContains, h1, h2, pySubscript, h3, h4, pyGet, h5]
  · intro av amount cv ds h1 h2 h3 h4 h5 h6 h7 h8
    have hne : kvs ≠ [] := by rintro rfl; simp [lookupKey] at h1
    have hemp : ds.isEmpty = false := by
      cases hds : ds.isEmpty
      · rfl
      · exact absurd ((String.isEmpty_iff ds).mp hds) h7
    unfold addExpenseRoute
    simp [pyTruthy, hne, pyContains, h1, h2, pySubscript, h3, h4, pyGet, h5,
      h6, hemp, h8]
  · intro av amount cv h1 h2 h3 h4 h5
    have hne : kvs ≠ [] := by rintro rfl; simp [lookupKey] at h1
    constructor
    · intro hdate
      unfold addExpenseRoute
      simp [pyTruthy, hne, pyContains, h1, h2, pySubscript, h3, h4, pyGet,
        h5, hdate]
    · intro ds hdate hds hparse
      obtain ⟨ymd, hymd⟩ := Option.isSome_iff_exists.mp hparse
      have hemp : ds.isEmpty = false := by
        cases hd2 : ds.isEmpty
        · rfl
        · exact absurd ((String.isEmpty_iff ds).mp hd2) hds
      unfold addExpenseRoute
      simp [pyTruthy, hne, pyContains, h1, h2, pySubscript, h3, h4, pyGet,
        h5, hdate, hemp, hymd]

set_option maxRecDepth 8192 in
/-- Closed instance of the amended C3: a well-formed body with no date is
accepted and stored. -/
theorem add_expense_route_validation_witness :
    addExpenseRoute (some (.dict [("amount", .int 10), ("category", .str "Food")]))
        initState "2024-01-15" 3 =
      (.created (add_expense initState (.finite 10) "Food" "" Option.none
          "2024-01-15" 3).1,
       (add_expense initState (.finite 10) "Food" "" Option.none
          "2024-01-15" 3).2) := by
  have h := ((add_expense_route_validation initState "2024-01-15" 3
      [("amount", .int 10), ("category", .str "Food")]).2.2.2.2.2.2.2
      (.int 10) (.finite 10) (.str "Food") rfl rfl rfl (by decide)
      (by decide)).1 rfl
  exact h

/-! ## Claim C9 — storage invariants over operation traces -/

/-- The storage invariant: row ids strictly increase in rowid order and stay
below the autoincrement counter, every stored amount is positive, every
stored date parses as `YYYY-MM-DD`. -/
def StoreInv (s : DBState) : Prop :=
  (s.rows.map (fun r => r.id)).Chain' (· < ·) ∧
  (∀ r ∈ s.rows, r.id < s.nextId) ∧
  (∀ r ∈ s.rows, pyFloatPos r.amount = true) ∧
  (∀ r ∈ s.rows, (strptimeYMD r.date).isSome)

/-- The invariant holds on a fresh database. -/
theorem storeInv_init : StoreInv initState := by
  refine ⟨?_, ?_, ?_, ?_⟩ <;> simp [initState]

/-- Every valid store operation preserves the invariant. -/
theorem storeInv_step (s : DBState) (op : LedgerOp) (hv : ValidOp op)
    (h : StoreInv s) : StoreInv (stepOp s op) := by
  obtain ⟨hchain, hlt, hamt, hdate⟩ := h
  cases op with
  | add a c n d t now =>
    obtain ⟨ha, _hc, ht, hd⟩ := hv
    refine ⟨?_, ?_, ?_, ?_⟩
    · simp only [stepOp, add_expense, List.map_append]
      rw [List.chain'_append]
      refine ⟨hchain, List.chain'_singleton _, ?_⟩
      intro x hx y hy
      simp only [List.map_cons, List.map_nil, List.head?_cons,
        Option.mem_def, Option.some.injEq] at hy
      subst hy
      obtain ⟨hne, hxl⟩ := List.mem_getLast?_eq_getLast hx
      have hxm : x ∈ s.rows.map (fun r => r.id) := hxl ▸ List.getLast_mem hne
      obtain ⟨r, hr, hrx⟩ := List.mem_map.mp hxm
      exact hrx ▸ hlt r hr
    · intro r hr
      rcases List.mem_append.mp hr with hold | hnew
      · exact Nat.lt_succ_of_lt (hlt r hold)
      · simp only [List.mem_singleton] at hnew
        subst hnew
        exact Nat.lt_succ_self _
    · intro r hr
      rcases List.mem_append.mp hr with hold | hnew
      · exact hamt r hold
      · simp only [List.mem_singleton] at hnew
        subst hnew
        exact ha
    · intro r hr
      rcases List.mem_append.mp hr with hold | hnew
      · exact hdate r hold
      · simp only [List.mem_singleton] at hnew
        subst hnew
        cases d with
        | none => exact ht
        | some ds => exact hd ds rfl
  | delete e =>
    refine ⟨?_, ?_, ?_, ?_⟩
    · exact List.Chain'.sublist hchain
        ((List.filter_sublist s.rows).map (fun r => r.id))
    · intro r hr
      exact hlt r (List.mem_of_mem_filter hr)
    · intro r hr
      exact hamt r (List.mem_of_mem_filter hr)
    · intro r hr
      exact hdate r (List.mem_of_mem_filter hr)

/-- The invariant holds after any valid trace from any invariant state. -/
theorem storeInv_foldl (ops : List LedgerOp) (s : DBState)
    (hv : ∀ op ∈ ops, ValidOp op) (hs : StoreInv s) :
    StoreInv (ops.foldl stepOp s) := by
  induction ops generalizing s with
  | nil => exact hs
  | cons op ops ih =>
    exact ih (stepOp s op) (fun o ho => hv o (List.mem_cons_of_mem op ho))
      (storeInv_step s op (hv op (List.mem_cons_self op ops)) hs)

/-- One folding step of `assignedIds`. -/
def assignStep (p : DBState × List Nat) (op : LedgerOp) : DBState × List Nat :=
  match op with
  | .add .. => (stepOp p.1 op, p.2 ++ [p.1.nextId])
  | .delete _ => (stepOp p.1 op, p.2)

/-- Ids assigned so far stay strictly increasing and below the autoincrement
counter, along any trace. -/
theorem assigned_chain_aux (ops : List LedgerOp) (p : DBState × List Nat)
    (hp : p.2.Chain' (· < ·) ∧ ∀ x ∈ p.2, x < p.1.nextId) :
    (ops.foldl assignStep p).2.Chain' (· < ·) ∧
    ∀ x ∈ (ops.foldl assignStep p).2, x < (ops.foldl assignStep p).1.nextId := by
  induction ops generalizing p with
  | nil => exact hp
  | cons op ops ih =>
    refine ih (assignStep p op) ?_
    obtain ⟨hchain, hbound⟩ := hp
    cases op with
    | add a c n d t now =>
      constructor
      · rw [assignStep, List.chain'_append]
        refine ⟨hchain, List.chain'_singleton _, ?_⟩
        intro x hx y hy
        simp only [List.head?_cons, Option.mem_def, Option.some.injEq] at hy
        subst hy
        obtain ⟨hne, hxl⟩ := List.mem_getLast?_eq_getLast hx
        exact hbound x (hxl ▸ List.getLast_mem hne)
      · intro x hx
        rcases List.mem_append.mp hx with hold | hnew
        · exact Nat.lt_succ_of_lt (hbound x hold)
        · simp only [List.mem_singleton] at hnew
          subst hnew
          exact Nat.lt_succ_self _
    | delete e => exact ⟨hchain, hbound⟩

/-- C9: along every trace of store operations whose `add` calls satisfy the
stated preconditions, the final store has strictly increasing (hence unique)
row ids all below the autoincrement counter, strictly positive amounts, and
syntactically valid `YYYY-MM-DD` dates; moreover the ids handed out over the
whole trace are strictly increasing, so an id is never reused after a
deletion. -/
theorem store_invariants_hold (ops : List LedgerOp)
    (hv : ∀ op ∈ ops, ValidOp op) :
    ((runOps ops).rows.map (fun r => r.id)).Chain' (· < ·) ∧
    ((runOps ops).rows.map (fun r => r.id)).Nodup ∧
    (∀ r ∈ (runOps ops).rows, r.id < (runOps ops).nextId) ∧
    (∀ r ∈ (runOps ops).rows, pyFloatPos r.amount = true) ∧
    (∀ r ∈ (runOps ops).rows, (strptimeYMD r.date).isSome) ∧
    (assignedIds ops).Chain' (· < ·) := by
  obtain ⟨hchain, hlt, hamt, hdate⟩ := storeInv_foldl ops initState hv storeInv_init
  have hassign := assigned_chain_aux ops (initState, [])
    ⟨List.chain'_nil, by simp⟩
  have hass2 : assignedIds ops = (ops.foldl assignStep (initState, [])).2 := by
    rw [assignedIds]
    congr 1
  refine ⟨hchain, ?_, hlt, hamt, hdate, ?_⟩
  · exact (List.chain'_iff_pairwise.mp hchain).imp Nat.ne_of_lt
  · rw [hass2]
    exact hassign.1

/-- Closed instance of C9 on a three-operation trace (add, delete, add). -/
theorem store_invariants_hold_witness :
    let ops : List LedgerOp :=
      [.add (.finite 5) "Food" "" Option.none "2024-01-15" 0,
       .delete 1,
       .add (.finite 7) "Fuel" "x" (some "2024-02-02") "2024-01-16" 1]
    ((runOps ops).rows.map (fun r => r.id)).Chain' (· < ·) ∧
    ((runOps ops).rows.map (fun r => r.id)).Nodup ∧
    (∀ r ∈ (runOps ops).rows, pyFloatPos r.amount = true) ∧
    (assignedIds ops).Chain' (· < ·) := by
  intro ops
  have hv : ∀ op ∈ ops, ValidOp op := by
    intro op hop
    simp only [ops, List.mem_cons, List.mem_singleton] at hop
    rcases hop with rfl | rfl | rfl | h
    · exact ⟨by decide, by decide, by decide, fun ds h => nomatch h⟩
    · trivial
    · refine ⟨by decide, by decide, by decide, fun ds h => ?_⟩
      cases h
      decide
    · cases h
  have h := store_invariants_hold ops hv
  exact ⟨h.1, h.2.1, h.2.2.2.1, h.2.2.2.2.2⟩

end SmartLife
